import Mathlib

/-!
Verification of the flashcard scheduling / progress engine and the
multimedia TTL cache of the Flashcards repository.

The tabular store (a spreadsheet) is modelled shallowly: a sheet is a header
row plus data rows of cells; the store maps sheet names to sheets.  Machine
time is modelled as milliseconds since the epoch (`Nat`) at UTC, so the
JavaScript `setHours(0,0,0,0)` day truncation becomes flooring to a multiple
of `msPerDay`.
-/

namespace Flashcards

/-- `s.trim()`: leading and trailing whitespace removed (written over the
character list so that proofs can evaluate it). -/
def strTrim (s : String) : String :=
  ⟨((s.data.dropWhile Char.isWhitespace).reverse.dropWhile Char.isWhitespace).reverse⟩

/-- `s.toLowerCase()` (written over the character list so that proofs can
evaluate it). -/
def strToLower (s : String) : String :=
  ⟨s.data.map Char.toLower⟩

/-- Occurrence of a substring, for `s.includes(t)`. -/
def subOccurs (needle : List Char) : List Char → Bool
  | [] => false
  | c :: rest => needle.isPrefixOf (c :: rest) || subOccurs needle rest

/-- A spreadsheet cell value.  `empty` models the empty-cell value `''` of
`getValues()` (and the falsy `null`); `list` models the array produced by the
`Tags` normalization in `getDeckFlashcards`. -/
inductive Cell where
  | empty
  | str (s : String)
  | num (n : Int)
  | date (t : Nat)
  | list (ts : List String)
deriving DecidableEq, Repr

/-- JavaScript truthiness of a cell value: `''`, `0` and `null` are falsy;
a `Date` object and any array are truthy. -/
def Cell.truthy : Cell → Bool
  | .empty => false
  | .str s => s != ""
  | .num n => n != 0
  | .date _ => true
  | .list _ => true

/-- The injective serialization `toISOString` of a `Date`; only its
injectivity and non-emptiness matter to the code, not the exact text. -/
def isoString (t : Nat) : String :=
  "1970-01-01T00:00:00.000Z+" ++ toString t

/-- `String(value)` coercion of a cell, as used for object keys and for the
serialization fallback in `getDeckFlashcards`. -/
def Cell.keyString : Cell → String
  | .empty => ""
  | .str s => s
  | .num n => toString n
  | .date t => isoString t
  | .list ts => String.intercalate "," ts

structure Sheet where
  headers : List String
  rows : List (List Cell)
deriving DecidableEq, Repr

abbrev Store := List (String × Sheet)

/-- `ss.getSheetByName(name)`. -/
def getSheetByName (store : Store) (name : String) : Option Sheet :=
  (store.find? (fun p => p.1 == name)).map (·.2)

/-- Writing back a mutated sheet: the store entry for `name` is replaced. -/
def setSheetByName (store : Store) (name : String) (sheet : Sheet) : Store :=
  store.map (fun p => if p.1 == name then (p.1, sheet) else p)

/-- Reading a cell of a row; cells beyond the row's stored width read as
empty, as in a spreadsheet. -/
def getCell (row : List Cell) (i : Nat) : Cell :=
  row.getD i Cell.empty

/-- `setValue` on a cell: extends the row with empty cells when the target
column lies beyond the stored width. -/
def setCellAt (row : List Cell) (i : Nat) (v : Cell) : List Cell :=
  if i < row.length then row.set i v
  else row ++ List.replicate (i - row.length) Cell.empty ++ [v]

/-- `headers.indexOf(name)`; `none` models the `-1` result. -/
def indexOfName (headers : List String) (name : String) : Option Nat :=
  headers.findIdx? (· == name)

/-- `allSheetData[0].map(h => String(h).trim())`. -/
def trimmed (headers : List String) : List String :=
  headers.map strTrim

/-- `parseInt(s, 10)`: leading whitespace skipped, optional sign, longest
digit prefix; `none` models `NaN`. -/
def parseIntStr (s : String) : Option Int :=
  let cs := (strTrim s).data
  let signAndRest : Int × List Char :=
    match cs with
    | '-' :: r => (-1, r)
    | '+' :: r => (1, r)
    | r => (1, r)
  let digits := signAndRest.2.takeWhile (·.isDigit)
  if digits.isEmpty then none
  else some (signAndRest.1 * (digits.foldl (fun a c => a * 10 + (c.toNat - 48)) (0 : Nat) : Nat))

/-- `parseInt` applied to a cell value.  `parseInt` of the textual form of a
`Date` is `NaN` (the text starts with a letter), as is `parseInt('')`. -/
def Cell.parseInt : Cell → Option Int
  | .num n => some n
  | .str s => parseIntStr s
  | _ => none

/-- `new Date(value)` validity for values this code stores in the date
columns: the columns are written with `Date` objects and cleared to empty,
so only a date cell yields a valid date (text-date parsing is not taken). -/
def Cell.asDate : Cell → Option Nat
  | .date t => some t
  | _ => none

def msPerDay : Nat := 24 * 60 * 60 * 1000

/-- `d.setHours(0,0,0,0)`: truncation of a timestamp to midnight (UTC in
this model). -/
def normalizedDay (t : Nat) : Nat :=
  t / msPerDay * msPerDay

/-! ## SchedulingEngine (FlashcardSystem.js) -/

/-- `calculateInterval(rating)` from FlashcardSystem.js: the fixed table
`[1, 3, 7, 14]` indexed by the rating clamped to `0..3`, with the JS `|| 1`
fallback for a falsy lookup result. -/
def calculateInterval (rating : Int) : Nat :=
  let intervals : List Nat := [1, 3, 7, 14]
  let idx := max 0 (min rating ((intervals.length : Int) - 1))
  let v := intervals.getD idx.toNat 0
  if v == 0 then 1 else v

/-! ## ProgressColumnManager -/

def userRatingCol (username : String) : String := username ++ "_Rating"
def userLastReviewCol (username : String) : String := username ++ "_LastReview"
def userNextDueCol (username : String) : String := username ++ "_NextDue"

/-- The column-ensuring block shared verbatim by `getUserDeckProgress` and
`recordCardRating` (FlashcardSystem.js): look the three per-user columns up
in the trimmed headers; when any is absent, append exactly the missing names
after the last header and re-resolve all three positions against the
re-read (trimmed) header row.  Rows are untouched: new columns read as
empty cells. -/
def ensureUserColumns (sheet : Sheet) (username : String) :
    Sheet × Option Nat × Option Nat × Option Nat :=
  let headers := trimmed sheet.headers
  let rCol := userRatingCol username
  let lCol := userLastReviewCol username
  let nCol := userNextDueCol username
  let ri := indexOfName headers rCol
  let li := indexOfName headers lCol
  let ni := indexOfName headers nCol
  if ri.isSome && li.isSome && ni.isSome then
    (sheet, ri, li, ni)
  else
    let newHeaders :=
      (if ri.isNone then [rCol] else []) ++
      (if li.isNone then [lCol] else []) ++
      (if ni.isNone then [nCol] else [])
    let sheet1 : Sheet := { sheet with headers := sheet.headers ++ newHeaders }
    let updated := trimmed sheet1.headers
    (sheet1, indexOfName updated rCol, indexOfName updated lCol, indexOfName updated nCol)

/-- One progress record as read from a deck row. -/
structure Progress where
  rating : Int
  lastReview : Option Nat
  nextDue : Option Nat
  interval : Nat
deriving DecidableEq, Repr

def defaultProgress : Progress := ⟨0, none, none, 1⟩

/-- The per-row read in `getUserDeckProgress`: a rating cell that is not the
empty string is `parseInt`ed with `NaN` collapsing to `0`; a review/due cell
is read as a date only when truthy and valid. -/
def rowProgress (ri li ni : Option Nat) (row : List Cell) : Progress :=
  let rating : Int :=
    match ri with
    | some i => if getCell row i == Cell.empty then 0 else ((getCell row i).parseInt).getD 0
    | none => 0
  let lastReview : Option Nat :=
    match li with
    | some i => if (getCell row i).truthy then (getCell row i).asDate else none
    | none => none
  let nextDue : Option Nat :=
    match ni with
    | some i => if (getCell row i).truthy then (getCell row i).asDate else none
    | none => none
  ⟨rating, lastReview, nextDue, calculateInterval rating⟩

/-- `getUserDeckProgress(username, deckName, cardIdsInDeck)`: throws when the
deck sheet or its `FlashcardID` column is missing; ensures the user columns;
initializes every card id to the default record and then overwrites from the
data rows (read before the column append, which leaves rows unchanged).
The JS object keyed by card id is modelled as a function from keys. -/
def getUserDeckProgress (store : Store) (username deckName : String)
    (cardIdsInDeck : List String) :
    Except String (Store × (String → Option Progress)) :=
  match getSheetByName store deckName with
  | none =>
    .error ("Deck sheet \"" ++ deckName ++ "\" not found while trying to get user progress.")
  | some sheet =>
    let headers := trimmed sheet.headers
    match indexOfName headers "FlashcardID" with
    | none =>
      .error ("FlashcardID column is missing in deck \"" ++ deckName ++ "\". Cannot track progress.")
    | some cardIdColIndex =>
      match ensureUserColumns sheet username with
      | (sheet1, ri, li, ni) =>
        let init : String → Option Progress :=
          fun id => if id ∈ cardIdsInDeck then some defaultProgress else none
        let progressData := sheet.rows.foldl
          (fun m row =>
            let cardId := getCell row cardIdColIndex
            if cardId.truthy && (m cardId.keyString).isSome then
              fun k => if k == cardId.keyString then some (rowProgress ri li ni row) else m k
            else m)
          init
        .ok (setSheetByName store deckName sheet1, progressData)

/-! ## Card merging and due computation (FlashcardSystem.js) -/

/-- A card object as built by `getDeckFlashcards`: an association of header
names to (serialized) cell values.  Later duplicate keys win, as for JS
object assignment. -/
abbrev CardObj := List (String × Cell)

def cardField (card : CardObj) (k : String) : Cell :=
  (((card.reverse).find? (fun p => p.1 == k)).map (·.2)).getD Cell.empty

structure ProcessedCard where
  card : CardObj
  id : Cell
  rating : Int
  lastReview : Option Nat
  nextDue : Option Nat
  interval : Nat
  isDue : Bool
deriving DecidableEq, Repr

/-- The body of the `map` in `processCardsWithProgress`: merge a card with
its progress record (defaulting when absent) and compare due dates after
truncating both to midnight; a card without a `nextDue` date is due. -/
def processOneCard (userProgress : String → Option Progress) (now0 : Nat)
    (card : CardObj) : ProcessedCard :=
  let key := (cardField card "FlashcardID").keyString
  let progress := (userProgress key).getD ⟨0, none, none, calculateInterval 0⟩
  let isDue :=
    match progress.nextDue with
    | none => true
    | some nd => decide (normalizedDay nd ≤ now0)
  ⟨card, cardField card "FlashcardID", progress.rating, progress.lastReview,
    progress.nextDue, progress.interval, isDue⟩

/-- `processCardsWithProgress(rawCards, userProgress)`: `now` is truncated to
midnight once, then every raw card is merged and annotated. -/
def processCardsWithProgress (rawCards : List CardObj)
    (userProgress : String → Option Progress) (now : Nat) : List ProcessedCard :=
  let now0 := normalizedDay now
  rawCards.map (processOneCard userProgress now0)

/-! ## TabularStore reads (Database.js, second `getDeckFlashcards`) -/

/-- The per-value serialization of `getDeckFlashcards`: a `Date` becomes its
ISO string, primitive values are kept. -/
def toClientCell : Cell → Cell
  | .date t => .str (isoString t)
  | c => c

/-- The `FlashcardID` presence test: the serialized value is truthy and its
string form does not trim to the empty string. -/
def idPresent (c : Cell) : Bool :=
  c.truthy && (strTrim c.keyString != "")

/-- The card object built for one data row: one entry per header, holding
the serialized cell at that header's position. -/
def buildCard (headers : List String) (row : List Cell) : CardObj :=
  headers.enum.map (fun p => (p.2, toClientCell (getCell row p.1)))

/-- `hasEssentialData` for one row: set when the `FlashcardID` header's
own cell passes the presence test. -/
def rowHasEssentialData (headers : List String) (row : List Cell) : Bool :=
  headers.enum.any (fun p => p.2 == "FlashcardID" && idPresent (toClientCell (getCell row p.1)))

/-- JS object assignment `card[k] = v` on the association model: replaces
the value at an existing key, appends otherwise. -/
def setField (card : CardObj) (k : String) (v : Cell) : CardObj :=
  if card.any (fun p => p.1 == k) then
    card.map (fun p => if p.1 == k then (k, v) else p)
  else card ++ [(k, v)]

def splitTags (s : String) : List String :=
  ((s.data.splitOn ',').map (fun cs => strTrim ⟨cs⟩)).filter (· != "")

/-- The `Tags` normalization: when the column exists, a string value is
split/trimmed/filtered; a freshly built card never holds an array, so the
`Array.isArray` alternative collapses to the empty list. -/
def normalizeTags (headers : List String) (card : CardObj) : CardObj :=
  if headers.contains "Tags" then
    match cardField card "Tags" with
    | .str s => setField card "Tags" (.list (splitTags s))
    | _ => setField card "Tags" (.list [])
  else card

/-- The `StudyConfig` normalization: null/undefined (and the empty cell)
stay null, any other value is coerced to its string form; the field is
explicitly null when the column does not exist. -/
def normalizeStudyConfig (headers : List String) (card : CardObj) : CardObj :=
  if headers.contains "StudyConfig" then
    match cardField card "StudyConfig" with
    | .empty => setField card "StudyConfig" .empty
    | v => setField card "StudyConfig" (.str v.keyString)
  else setField card "StudyConfig" .empty

def finalizeCard (headers : List String) (row : List Cell) : CardObj :=
  normalizeStudyConfig headers (normalizeTags headers (buildCard headers row))

/-- The push condition of the row loop: `hasEssentialData && card.FlashcardSideA
&& card.FlashcardSideB` on the built card. -/
def keepRow (headers : List String) (row : List Cell) : Bool :=
  rowHasEssentialData headers row &&
    (cardField (buildCard headers row) "FlashcardSideA").truthy &&
    (cardField (buildCard headers row) "FlashcardSideB").truthy

def requiredColumns : List String := ["FlashcardID", "FlashcardSideA", "FlashcardSideB"]

/-- `getDeckFlashcards(deckName)` (Database.js, second definition — the one
in force): throws when the sheet is missing; throws on the first required
column absent from the trimmed headers; otherwise loops over the data rows,
pushing each row's card when its essential values are present and skipping
it otherwise.  (The `data.length < 1` early return is unreachable:
`getValues()` always yields at least the header row.) -/
def getDeckFlashcards (store : Store) (deckName : String) :
    Except String (List CardObj) :=
  match getSheetByName store deckName with
  | none => .error ("Deck \"" ++ deckName ++ "\" not found.")
  | some sheet =>
    let headers := trimmed sheet.headers
    match requiredColumns.find? (fun c => !(headers.contains c)) with
    | some col =>
      .error ("Deck \"" ++ deckName ++ "\" is missing required column: \"" ++ col ++
        "\". Please check sheet headers.")
    | none =>
      .ok (sheet.rows.foldl
        (fun acc row =>
          if keepRow headers row then acc ++ [finalizeCard headers row] else acc)
        [])

/-! ## DeckProgressService (FlashcardSystem.js) -/

/-- `s.includes(t)` for a non-empty needle, via `splitOn`. -/
def containsSubstr (s t : String) : Bool :=
  subOccurs t.data s.data

/-- The catch block of `getFlashcardsForDeck`: a thrown message mentioning
"not found" (case-insensitively) is replaced by the friendly text, any other
one is wrapped as a server error. -/
def translateDeckError (deckName e : String) : String :=
  if containsSubstr (strToLower e) "not found" then
    "Could not load deck \"" ++ deckName ++ "\". It might not exist or there was an issue accessing it."
  else
    "Server error getting flashcards for deck \"" ++ deckName ++ "\": " ++ e

structure DeckInfo where
  deckName : String
  cards : List ProcessedCard
  totalCards : Nat
  dueCards : Nat
deriving DecidableEq, Repr

/-- `getFlashcardsForDeck(deckName)`: rejects a missing user before any
store access; reads the raw cards and the user progress (whose thrown
errors land in the shared catch block), merges them and counts the due
cards.  `user` models `getCurrentUserInfo()`, `now` the wall clock.  The
`rawCards`/`userProgress`/`processedCards` null guards are unreachable in
the model (the callees are total). -/
def getFlashcardsForDeck (store : Store) (user : Option String)
    (deckName : String) (now : Nat) : Except String (Store × DeckInfo) :=
  match user with
  | none => .error "User not logged in. Please log in to study decks."
  | some username =>
    match getDeckFlashcards store deckName with
    | .error e => .error (translateDeckError deckName e)
    | .ok rawCards =>
      let cardIds := rawCards.map (fun c => (cardField c "FlashcardID").keyString)
      match getUserDeckProgress store username deckName cardIds with
      | .error e => .error (translateDeckError deckName e)
      | .ok (store1, userProgress) =>
        let processedCards := processCardsWithProgress rawCards userProgress now
        .ok (store1,
          ⟨deckName, processedCards, processedCards.length,
            (processedCards.filter (·.isDue)).length⟩)

/-- `rows.set` wrapper used by `recordCardRating` for its three `setValue`
calls on one row. -/
def updateRowAt (rows : List (List Cell)) (i : Nat)
    (f : List Cell → List Cell) : List (List Cell) :=
  rows.set i (f (rows.getD i []))

/-- `recordCardRating(deckName, cardId, rating)`: validates the rating
before anything else (the incoming value is a number, so the JS
`parseInt` is the identity here), requires a user and the deck sheet and
the `FlashcardID` column, runs the column-ensuring block (failing when the
re-resolution still misses a column), locates the card's row by strict
equality with the id string, and writes rating, review time and
`now + interval * msPerDay` (a raw-timestamp offset) into that row.
Returns the next due timestamp and the interval. -/
def recordCardRating (store : Store) (user : Option String)
    (deckName cardId : String) (rating : Int) (now : Nat) :
    Except String (Store × Nat × Nat) :=
  if rating < 0 || rating > 3 then
    .error "Invalid rating value. Must be between 0 and 3."
  else
    match user with
    | none => .error "User not logged in. Cannot record rating."
    | some username =>
      match getSheetByName store deckName with
      | none => .error ("Deck \"" ++ deckName ++ "\" not found.")
      | some sheet =>
        let headers := trimmed sheet.headers
        match indexOfName headers "FlashcardID" with
        | none => .error "FlashcardID column not found in deck."
        | some cardIdColIndex =>
          match ensureUserColumns sheet username with
          | (sheet1, some ratingColIndex, some lastReviewColIndex, some nextDueColIndex) =>
            match sheet.rows.findIdx? (fun row => getCell row cardIdColIndex == Cell.str cardId) with
            | none => .error ("Card ID \"" ++ cardId ++ "\" not found in deck \"" ++ deckName ++ "\".")
            | some cardRowIndex =>
              let intervalDays := calculateInterval rating
              let nextDueDate := now + intervalDays * msPerDay
              let rows1 := updateRowAt sheet1.rows cardRowIndex
                (fun row => setCellAt row ratingColIndex (Cell.num rating))
              let rows2 := updateRowAt rows1 cardRowIndex
                (fun row => setCellAt row lastReviewColIndex (Cell.date now))
              let rows3 := updateRowAt rows2 cardRowIndex
                (fun row => setCellAt row nextDueColIndex (Cell.date nextDueDate))
              .ok (setSheetByName store deckName { sheet1 with rows := rows3 },
                nextDueDate, intervalDays)
          | _ => .error "Failed to create user progress columns. Cannot record rating."

/-- `clearContent` over one whole data column (when the column was found):
clearing never widens a row, so a column index beyond a row's width leaves
that row as it was. -/
def clearColumn (rows : List (List Cell)) (idx : Option Nat) : List (List Cell) :=
  match idx with
  | some i => rows.map (fun row => row.set i Cell.empty)
  | none => rows

/-- `resetDeckProgress(deckName)`: requires a user and the deck sheet;
when none of the three per-user columns exists the call is a successful
no-op; otherwise each existing one is cleared across all data rows.
Headers are never touched. -/
def resetDeckProgress (store : Store) (user : Option String)
    (deckName : String) : Except String (Store × String) :=
  match user with
  | none => .error "User not logged in. Cannot reset progress."
  | some username =>
    match getSheetByName store deckName with
    | none => .error ("Deck \"" ++ deckName ++ "\" not found.")
    | some sheet =>
      let headers := trimmed sheet.headers
      let ri := indexOfName headers (userRatingCol username)
      let li := indexOfName headers (userLastReviewCol username)
      let ni := indexOfName headers (userNextDueCol username)
      if ri.isNone && li.isNone && ni.isNone then
        .ok (store,
          "No progress data found for user \"" ++ username ++ "\" in deck \"" ++ deckName ++ "\" to reset.")
      else
        let rows3 := clearColumn (clearColumn (clearColumn sheet.rows ri) li) ni
        .ok (setSheetByName store deckName { sheet with rows := rows3 },
          "Progress for deck \"" ++ deckName ++ "\" has been reset successfully.")

def systemSheets : List String := ["Config", "Classes"]

/-- `getAvailableDecks(true)` (Database.js): the sheet names, with the
system sheets excluded. -/
def getAvailableDecks (store : Store) (excludeSystemSheets : Bool) : List String :=
  (store.map (·.1)).filter (fun name => !excludeSystemSheets || !(systemSheets.contains name))

/-- One entry of `dueCardsByDeck`: either the two counts, or the
`'N/A'`/`error` annotation carrying the per-deck failure message. -/
inductive DeckEntry where
  | counts (totalCards dueCards : Nat)
  | err (message : String)
deriving DecidableEq, Repr

/-- The body of the per-deck `forEach` in `getUserDueCards`: a successful
deck contributes its counts, a failing one (the error return and the caught
throw coincide in this total model) contributes the `'N/A'`/error
annotation; either way the next deck is still processed against the live
store. -/
def dueCardsStep (user : Option String) (now : Nat)
    (acc : Store × List (String × DeckEntry)) (deckName : String) :
    Store × List (String × DeckEntry) :=
  match getFlashcardsForDeck acc.1 user deckName now with
  | .ok (st1, deckInfo) =>
    (st1, acc.2 ++ [(deckName, DeckEntry.counts deckInfo.totalCards deckInfo.dueCards)])
  | .error m => (acc.1, acc.2 ++ [(deckName, DeckEntry.err m)])

/-- `getUserDueCards()`: requires a user, lists the user's decks and calls
`getFlashcardsForDeck` per deck against the live (mutating) store, turning
a per-deck failure into an error annotation under that deck's key while the
remaining decks are still processed; the overall result is a success. -/
def getUserDueCards (store : Store) (user : Option String) (now : Nat) :
    Except String (List String × List (String × DeckEntry)) :=
  match user with
  | none => .error "User not logged in."
  | some _ =>
    let userDecks := getAvailableDecks store true
    let final := userDecks.foldl (dueCardsStep user now) (store, [])
    .ok (userDecks, final.2)

/-! ## MultimediaCache (DictionaryIntegration.js and src/unnamed/part_002) -/

/-- The result contract of one external fetcher (`fetchAudioFromVoiceRss_`
or `fetchImageFromPixabay_`): a success flag, the URL on success, and a
message.  The fetchers themselves are network collaborators, so a call's
results are parameters of the cache model. -/
structure FetchResult where
  success : Bool
  url : Option String
  message : String
deriving DecidableEq, Repr

/-- The combined provider result. -/
structure MMContent where
  success : Bool
  word : String
  audioUrl : Option String
  imageUrl : Option String
  message : String
deriving DecidableEq, Repr

/-- `fetchMultimediaContentForWord_(originalWord)` (identical in both
variants): overall success is the disjunction, failure messages are
compiled, each URL is kept only from a successful sub-fetch. -/
def fetchMultimediaContentForWord (originalWord : String)
    (audioResult imageResult : FetchResult) : MMContent :=
  let messages : List String :=
    (if !audioResult.success && audioResult.message != "" then
      ["Audio: " ++ audioResult.message] else []) ++
    (if !imageResult.success && imageResult.message != "" then
      ["Image: " ++ imageResult.message] else [])
  let overallSuccess := audioResult.success || imageResult.success
  let finalMessage :=
    if overallSuccess then
      (if messages.length > 0 then "Partial success. " ++ String.intercalate "; " messages
       else "Content fetched successfully.")
    else
      (if messages.length > 0 then String.intercalate "; " messages
       else "Failed to fetch any content.")
  { success := overallSuccess
    word := originalWord
    audioUrl := if audioResult.success then audioResult.url else none
    imageUrl := if imageResult.success then imageResult.url else none
    message := finalMessage }

/-- The user-properties store holding the serialized cache entries: a key
maps to a parsed `(timestamp, data)` pair, or to `none` for a stored string
that does not parse back (corruption). -/
abbrev Cache := List (String × Option (Nat × MMContent))

def getProperty (cache : Cache) (k : String) : Option (Option (Nat × MMContent)) :=
  (cache.find? (fun p => p.1 == k)).map (·.2)

def setProperty (cache : Cache) (k : String) (v : Option (Nat × MMContent)) : Cache :=
  if cache.any (fun p => p.1 == k) then
    cache.map (fun p => if p.1 == k then (k, v) else p)
  else cache ++ [(k, v)]

def MULTIMEDIA_CACHE_DURATION_MS : Nat := 7 * 24 * 60 * 60 * 1000

/-- `getCachedMultimediaContent(word)` from src/server/DictionaryIntegration.js
(cache key prefix `multimedia_v2_`).  A parsed entry with a truthy timestamp
younger than the TTL is returned as-is; an expired, corrupted or absent
entry falls through to a fresh fetch, and the fetched result is stored
UNCONDITIONALLY — the partial-success guard around `setProperty` is
commented out in this variant (`JSON.stringify` of the plain result object
cannot throw, so the surrounding try/catch never fires).  The third
component records whether the fetch collaborator was invoked. -/
def getCachedMultimediaContent (cache : Cache) (word : String) (now : Nat)
    (audioResult imageResult : FetchResult) : MMContent × Cache × Bool :=
  let normalizedWord := strTrim (strToLower word)
  let cacheKey := "multimedia_v2_" ++ normalizedWord
  let freshResult :=
    let content := fetchMultimediaContentForWord word audioResult imageResult
    (content, setProperty cache cacheKey (some (now, content)), true)
  match getProperty cache cacheKey with
  | some (some (ts, data)) =>
    if ts != 0 && now - ts < MULTIMEDIA_CACHE_DURATION_MS then (data, cache, false)
    else freshResult
  | some none => freshResult
  | none => freshResult

/-- Truthiness of an optional URL field: `null` and `''` are falsy. -/
def optUrlTruthy : Option String → Bool
  | some s => s != ""
  | none => false

/-- `getCachedMultimediaContent(word)` from src/unnamed/part_002 (cache key
prefix `multimedia_v1_`): identical lookup, but the fetched result is stored
only when `content.success || content.audioUrl || content.imageUrl` — i.e.
when at least one sub-resource was obtained; a fully failed result leaves
the cache untouched. -/
def getCachedMultimediaContentV1 (cache : Cache) (word : String) (now : Nat)
    (audioResult imageResult : FetchResult) : MMContent × Cache × Bool :=
  let normalizedWord := strTrim (strToLower word)
  let cacheKey := "multimedia_v1_" ++ normalizedWord
  let freshResult :=
    let content := fetchMultimediaContentForWord word audioResult imageResult
    if content.success || optUrlTruthy content.audioUrl || optUrlTruthy content.imageUrl then
      (content, setProperty cache cacheKey (some (now, content)), true)
    else
      (content, cache, true)
  match getProperty cache cacheKey with
  | some (some (ts, data)) =>
    if ts != 0 && now - ts < MULTIMEDIA_CACHE_DURATION_MS then (data, cache, false)
    else freshResult
  | some none => freshResult
  | none => freshResult

/-! ## Spec-side comparison definition -/

/-- The spec's `computeNextDue(now, rating)`, written from the spec's words
(`normalizedDay(now) + calculateInterval(rating)` days) for comparison with
what `recordCardRating` actually stores. -/
def computeNextDueSpec (now : Nat) (rating : Int) : Nat :=
  normalizedDay now + calculateInterval rating * msPerDay

/-! ## Theorems -/

/-- C3: for every rating `r` in `{0,1,2,3}`, `calculateInterval r` equals
`[1,3,7,14][r]`; a rating below the range clamps to the low endpoint `1`,
a rating above it clamps to the high endpoint `14`.  The function is total
(a plain `def`), so it never throws. -/
theorem calculateInterval_clamps (r : Int) :
    (0 ≤ r → r ≤ 3 → calculateInterval r = [1, 3, 7, 14].getD r.toNat 0) ∧
    (r < 0 → calculateInterval r = 1) ∧
    (3 < r → calculateInterval r = 14) := by
  refine ⟨fun h0 h3 => ?_, fun hneg => ?_, fun hbig => ?_⟩
  · interval_cases r <;> rfl
  · have h : max 0 (min r (([1, 3, 7, 14] : List Nat).length - 1 : Int)) = 0 := by
      simp only [List.length_cons, List.length_nil]
      omega
    simp only [calculateInterval, h]
    rfl
  · have h : max 0 (min r (([1, 3, 7, 14] : List Nat).length - 1 : Int)) = 3 := by
      simp only [List.length_cons, List.length_nil]
      omega
    simp only [calculateInterval, h]
    rfl

/-- C3 witness: the theorem applied at ratings 2, -5 and 10. -/
theorem calculateInterval_clamps_witness :
    calculateInterval 2 = 7 ∧ calculateInterval (-5) = 1 ∧ calculateInterval 10 = 14 :=
  ⟨by have h := (calculateInterval_clamps 2).1 (by decide) (by decide); simpa using h,
   (calculateInterval_clamps (-5)).2.1 (by decide),
   (calculateInterval_clamps 10).2.2 (by decide)⟩

/-- C4: merging cards with progress maps every raw card through
`processOneCard` at the day-truncated clock, and per card: a card without a
progress record, or whose record has no `nextDue`, is due; a card with a
`nextDue` date is due exactly when `normalizedDay nextDue ≤ normalizedDay
now`, i.e. the comparison is at day granularity on both sides. -/
theorem processCards_isDue_day_granularity
    (rawCards : List CardObj) (m : String → Option Progress) (now : Nat) (card : CardObj) :
    processCardsWithProgress rawCards m now =
      rawCards.map (processOneCard m (normalizedDay now)) ∧
    (m (cardField card "FlashcardID").keyString = none →
      (processOneCard m (normalizedDay now) card).isDue = true) ∧
    (∀ p, m (cardField card "FlashcardID").keyString = some p → p.nextDue = none →
      (processOneCard m (normalizedDay now) card).isDue = true) ∧
    (∀ p nd, m (cardField card "FlashcardID").keyString = some p → p.nextDue = some nd →
      ((processOneCard m (normalizedDay now) card).isDue = true ↔
        normalizedDay nd ≤ normalizedDay now)) := by
  refine ⟨rfl, fun hnone => ?_, fun p hp hnd => ?_, fun p nd hp hnd => ?_⟩
  · simp [processOneCard, hnone]
  · simp [processOneCard, hp, hnd]
  · simp [processOneCard, hp, hnd]

/-- C4 witness: the theorem applied to a one-card deck whose record is due
the same day, and to a card with no record at all. -/
theorem processCards_isDue_day_granularity_witness :
    (processOneCard
        (fun k => if k == "c1" then some ⟨2, some 0, some (7 * msPerDay + 3), 7⟩ else none)
        (normalizedDay (7 * msPerDay + 999)) [("FlashcardID", Cell.str "c1")]).isDue = true ∧
    (processOneCard (fun _ => none)
        (normalizedDay 5) [("FlashcardID", Cell.str "c9")]).isDue = true := by
  constructor
  · exact ((processCards_isDue_day_granularity []
      (fun k => if k == "c1" then some ⟨2, some 0, some (7 * msPerDay + 3), 7⟩ else none)
      (7 * msPerDay + 999) [("FlashcardID", Cell.str "c1")]).2.2.2
      ⟨2, some 0, some (7 * msPerDay + 3), 7⟩ (7 * msPerDay + 3)
      (by decide) rfl).mpr (by decide)
  · exact (processCards_isDue_day_granularity [] (fun _ => none) 5
      [("FlashcardID", Cell.str "c9")]).2.1 rfl

/-- C5: with a parsed cache entry `(ts, data)` under the word's key, a call
within the TTL window returns the stored value unchanged, leaves the cache
untouched and never invokes the fetch collaborator — so two calls within
the window agree even when their would-be fetch results differ — while a
call at or past the TTL invokes a fresh fetch and returns and stores the
fresh result. -/
theorem cache_ttl_hit_and_refresh (cache : Cache) (word : String) (n1 : Nat)
    (a i : FetchResult) (ts : Nat) (data : MMContent)
    (hentry : getProperty cache ("multimedia_v2_" ++ strTrim (strToLower word)) =
      some (some (ts, data))) :
    (ts ≠ 0 → n1 - ts < MULTIMEDIA_CACHE_DURATION_MS →
      getCachedMultimediaContent cache word n1 a i = (data, cache, false)) ∧
    (∀ n2 a2 i2, ts ≠ 0 → n1 - ts < MULTIMEDIA_CACHE_DURATION_MS →
      n2 - ts < MULTIMEDIA_CACHE_DURATION_MS →
      (getCachedMultimediaContent cache word n1 a i).1 =
        (getCachedMultimediaContent cache word n2 a2 i2).1) ∧
    (MULTIMEDIA_CACHE_DURATION_MS ≤ n1 - ts →
      getCachedMultimediaContent cache word n1 a i =
        (fetchMultimediaContentForWord word a i,
         setProperty cache ("multimedia_v2_" ++ strTrim (strToLower word))
           (some (n1, fetchMultimediaContentForWord word a i)), true)) := by
  refine ⟨fun hts hfresh => ?_, fun n2 a2 i2 hts h1 h2 => ?_, fun hstale => ?_⟩
  · simp only [getCachedMultimediaContent, hentry]
    simp [hts, hfresh]
  · have e1 : getCachedMultimediaContent cache word n1 a i = (data, cache, false) := by
      simp only [getCachedMultimediaContent, hentry]
      simp [hts, h1]
    have e2 : getCachedMultimediaContent cache word n2 a2 i2 = (data, cache, false) := by
      simp only [getCachedMultimediaContent, hentry]
      simp [hts, h2]
    rw [e1, e2]
  · simp only [getCachedMultimediaContent, hentry]
    simp [show ¬(n1 - ts < MULTIMEDIA_CACHE_DURATION_MS) from by omega]

/-- C5 witness: the theorem applied to a concrete single-entry cache, once
inside the window (with fetch results that would differ) and once after it
has elapsed. -/
theorem cache_ttl_hit_and_refresh_witness :
    (getCachedMultimediaContent
        [("multimedia_v2_cat", some (100, ⟨true, "cat", some "a.mp3", none, "ok"⟩))]
        "cat" 150 ⟨true, some "other.mp3", ""⟩ ⟨false, none, "down"⟩ =
      (⟨true, "cat", some "a.mp3", none, "ok"⟩,
        [("multimedia_v2_cat", some (100, ⟨true, "cat", some "a.mp3", none, "ok"⟩))], false)) ∧
    (getCachedMultimediaContent
        [("multimedia_v2_cat", some (100, ⟨true, "cat", some "a.mp3", none, "ok"⟩))]
        "cat" (100 + MULTIMEDIA_CACHE_DURATION_MS) ⟨false, none, "down"⟩ ⟨false, none, "down"⟩).2.2
      = true := by
  constructor
  · exact (cache_ttl_hit_and_refresh
      [("multimedia_v2_cat", some (100, ⟨true, "cat", some "a.mp3", none, "ok"⟩))]
      "cat" 150 ⟨true, some "other.mp3", ""⟩ ⟨false, none, "down"⟩ 100
      ⟨true, "cat", some "a.mp3", none, "ok"⟩ (by decide)).1 (by decide) (by decide)
  · rw [(cache_ttl_hit_and_refresh
      [("multimedia_v2_cat", some (100, ⟨true, "cat", some "a.mp3", none, "ok"⟩))]
      "cat" (100 + MULTIMEDIA_CACHE_DURATION_MS) ⟨false, none, "down"⟩ ⟨false, none, "down"⟩ 100
      ⟨true, "cat", some "a.mp3", none, "ok"⟩ (by decide)).2.2 (by omega)]

/-- C2 counterexample: in the variant in force (src/server/DictionaryIntegration.js),
a fetch where BOTH sub-resources failed is still cached: starting from the
empty cache, the both-failed result changes the cache state, and an
immediately following call for the same key does not invoke fetch — it
returns the cached failure (success still false) — contradicting the
claimed leave-uncached-on-total-failure policy. -/
theorem cache_stores_total_failure_cex :
    ((getCachedMultimediaContent [] "cat" 5 ⟨false, none, "down"⟩ ⟨false, none, "down"⟩).2.1 ≠
      ([] : Cache)) ∧
    ((getCachedMultimediaContent
        ((getCachedMultimediaContent [] "cat" 5 ⟨false, none, "down"⟩ ⟨false, none, "down"⟩).2.1)
        "cat" 6 ⟨true, some "a.mp3", ""⟩ ⟨true, some "i.png", ""⟩).2.2 = false) ∧
    ((getCachedMultimediaContent
        ((getCachedMultimediaContent [] "cat" 5 ⟨false, none, "down"⟩ ⟨false, none, "down"⟩).2.1)
        "cat" 6 ⟨true, some "a.mp3", ""⟩ ⟨true, some "i.png", ""⟩).1.success = false) := by
  refine ⟨by decide, by decide, by decide⟩

/-- C2 amended: on a cache miss, the variant in force
(src/server/DictionaryIntegration.js) stores the fetched result
unconditionally — even when both sub-resources failed — so a following call
within the TTL returns the cached failure; the claimed policy (store exactly
when at least one sub-resource was obtained) holds only of the older variant
in src/unnamed/part_002. -/
theorem cache_storage_policy (cache : Cache) (word : String) (now : Nat)
    (a i : FetchResult)
    (hmiss2 : getProperty cache ("multimedia_v2_" ++ strTrim (strToLower word)) = none)
    (hmiss1 : getProperty cache ("multimedia_v1_" ++ strTrim (strToLower word)) = none) :
    ((getCachedMultimediaContent cache word now a i).2.1 =
      setProperty cache ("multimedia_v2_" ++ strTrim (strToLower word))
        (some (now, fetchMultimediaContentForWord word a i))) ∧
    ((a.success || i.success) = true →
      (getCachedMultimediaContentV1 cache word now a i).2.1 =
        setProperty cache ("multimedia_v1_" ++ strTrim (strToLower word))
          (some (now, fetchMultimediaContentForWord word a i))) ∧
    ((a.success || i.success) = false →
      (getCachedMultimediaContentV1 cache word now a i).2.1 = cache) := by
  refine ⟨?_, fun hsome => ?_, fun hnone => ?_⟩
  · simp only [getCachedMultimediaContent, hmiss2]
  · simp only [getCachedMultimediaContentV1, hmiss1]
    simp [fetchMultimediaContentForWord, hsome]
  · obtain ⟨ha, hi⟩ : a.success = false ∧ i.success = false := by
      constructor <;> cases h1 : a.success <;> cases h2 : i.success <;>
        simp [h1, h2] at hnone ⊢
    simp only [getCachedMultimediaContentV1, hmiss1]
    simp [fetchMultimediaContentForWord, ha, hi, optUrlTruthy]

/-- C2 witness: the amended theorem applied at the empty cache; with both
sub-fetches failed the server variant still stores an entry while the v1
variant leaves the cache empty. -/
theorem cache_storage_policy_witness :
    ((getCachedMultimediaContent [] "dog" 9 ⟨false, none, "down"⟩ ⟨false, none, "down"⟩).2.1 =
      setProperty [] "multimedia_v2_dog"
        (some (9, fetchMultimediaContentForWord "dog" ⟨false, none, "down"⟩ ⟨false, none, "down"⟩))) ∧
    ((getCachedMultimediaContentV1 [] "dog" 9 ⟨false, none, "down"⟩ ⟨false, none, "down"⟩).2.1 =
      ([] : Cache)) := by
  have h := cache_storage_policy [] "dog" 9 ⟨false, none, "down"⟩ ⟨false, none, "down"⟩
    (by decide) (by decide)
  exact ⟨by rw [h.1]; decide, h.2.2 (by decide)⟩

/-! ### Store and sheet helper lemmas -/

theorem getSheetByName_cons (p : String × Sheet) (rest : Store) (name : String) :
    getSheetByName (p :: rest) name =
      if p.1 == name then some p.2 else getSheetByName rest name := by
  by_cases hp : p.1 == name
  · rw [if_pos hp]
    show Option.map (fun x => x.2) (List.find? (fun q => q.1 == name) (p :: rest)) = some p.2
    rw [List.find?_cons_of_pos rest (show (fun q : String × Sheet => q.1 == name) p = true from hp)]
    rfl
  · rw [if_neg hp]
    show Option.map (fun x => x.2) (List.find? (fun q => q.1 == name) (p :: rest)) =
      getSheetByName rest name
    rw [List.find?_cons_of_neg rest
      (show ¬((fun q : String × Sheet => q.1 == name) p = true) from by simpa using hp)]
    rfl

theorem setSheetByName_cons (p : String × Sheet) (rest : Store) (name : String) (s : Sheet) :
    setSheetByName (p :: rest) name s =
      (if p.1 == name then (p.1, s) else p) :: setSheetByName rest name s := rfl

theorem getSheetByName_set_self (store : Store) (name : String) (s : Sheet)
    (h : (getSheetByName store name).isSome) :
    getSheetByName (setSheetByName store name s) name = some s := by
  induction store with
  | nil => simp [getSheetByName] at h
  | cons p rest ih =>
    rw [getSheetByName_cons] at h
    rw [setSheetByName_cons]
    by_cases hp : p.1 == name
    · rw [if_pos hp, getSheetByName_cons]
      simp [hp]
    · rw [if_neg hp, getSheetByName_cons, if_neg hp]
      rw [if_neg hp] at h
      exact ih h

theorem getSheetByName_set_ne (store : Store) (name other : String) (s : Sheet)
    (h : (other == name) = false) :
    getSheetByName (setSheetByName store name s) other = getSheetByName store other := by
  induction store with
  | nil => rfl
  | cons p rest ih =>
    rw [setSheetByName_cons, getSheetByName_cons, getSheetByName_cons]
    by_cases hp : p.1 == name
    · have hpo : (p.1 == other) = false := by
        have h1 : p.1 = name := by simpa using hp
        have h2 : ¬(other = name) := by simpa using h
        simpa [h1] using fun e => h2 e.symm
      rw [if_pos hp]
      simp [hpo, ih]
    · rw [if_neg hp]
      by_cases hq : p.1 == other
      · simp [hq]
      · simp only [hq, Bool.false_eq_true, if_false]
        exact ih

theorem ensureUserColumns_rows (sheet : Sheet) (u : String) :
    (ensureUserColumns sheet u).1.rows = sheet.rows := by
  simp only [ensureUserColumns]
  split <;> rfl

/-- The indices returned by the ensuring block are always the `indexOf`
positions of the three names in the (trimmed) headers of the sheet it
returns. -/
theorem ensureUserColumns_indices (sheet : Sheet) (u : String) :
    (ensureUserColumns sheet u).2.1 =
      indexOfName (trimmed (ensureUserColumns sheet u).1.headers) (userRatingCol u) ∧
    (ensureUserColumns sheet u).2.2.1 =
      indexOfName (trimmed (ensureUserColumns sheet u).1.headers) (userLastReviewCol u) ∧
    (ensureUserColumns sheet u).2.2.2 =
      indexOfName (trimmed (ensureUserColumns sheet u).1.headers) (userNextDueCol u) := by
  simp only [ensureUserColumns]
  split <;> simp_all

theorem getCell_setCellAt_self (row : List Cell) (i : Nat) (v : Cell) :
    getCell (setCellAt row i v) i = v := by
  unfold setCellAt getCell
  split
  · rename_i h
    rw [List.getD_eq_getElem?_getD, List.getElem?_set_self h]
    rfl
  · rename_i h
    rw [List.getD_eq_getElem?_getD, List.append_assoc, List.getElem?_append_right (by omega)]
    rw [List.getElem?_append_right (by simp)]
    simp

theorem updateRowAt_length (rows : List (List Cell)) (i : Nat) (f : List Cell → List Cell) :
    (updateRowAt rows i f).length = rows.length := by
  unfold updateRowAt
  simp

theorem updateRowAt_getD_self (rows : List (List Cell)) (i : Nat)
    (f : List Cell → List Cell) (h : i < rows.length) :
    (updateRowAt rows i f).getD i [] = f (rows.getD i []) := by
  unfold updateRowAt
  rw [List.getD_eq_getElem?_getD, List.getElem?_set_self h]
  rfl

/-- C1 amended: when `recordCardRating` succeeds, the interval is
`calculateInterval rating` and the next due timestamp — both the returned
one and the one stored in the card's row under the user's `_NextDue`
column — is `now + interval · msPerDay`: a fine-grained offset from the raw
clock value, not `normalizedDay now` plus the interval. -/
theorem recordCardRating_nextDue_raw_offset
    (store : Store) (user : Option String) (deckName cardId : String)
    (rating : Int) (now : Nat) (st : Store) (nd iv : Nat)
    (hok : recordCardRating store user deckName cardId rating now = .ok (st, nd, iv)) :
    iv = calculateInterval rating ∧
    nd = now + calculateInterval rating * msPerDay ∧
    ∃ username sheet sheet1 ci rowIdx ni,
      user = some username ∧
      getSheetByName store deckName = some sheet ∧
      getSheetByName st deckName = some sheet1 ∧
      indexOfName (trimmed sheet.headers) "FlashcardID" = some ci ∧
      sheet.rows.findIdx? (fun row => getCell row ci == Cell.str cardId) = some rowIdx ∧
      indexOfName (trimmed sheet1.headers) (userNextDueCol username) = some ni ∧
      getCell (sheet1.rows.getD rowIdx []) ni =
        Cell.date (now + calculateInterval rating * msPerDay) := by
  unfold recordCardRating at hok
  split at hok
  · exact absurd hok (by simp)
  split at hok
  · exact absurd hok (by simp)
  rename_i username
  split at hok
  · exact absurd hok (by simp)
  rename_i sheet hsheet
  dsimp only at hok
  split at hok
  · exact absurd hok (by simp)
  rename_i ci hci
  split at hok
  · rename_i sheet1 ri li ni hens
    split at hok
    · exact absurd hok (by simp)
    rename_i rowIdx hrow
    simp only [Except.ok.injEq, Prod.mk.injEq] at hok
    obtain ⟨hst, hnd, hiv⟩ := hok
    have hrowlt : rowIdx < sheet.rows.length := by
      obtain ⟨hb, -⟩ := List.findIdx?_eq_some_iff_getElem.mp hrow
      exact hb
    have hensrows : sheet1.rows = sheet.rows := by
      have h2 := ensureUserColumns_rows sheet username
      rw [hens] at h2
      exact h2
    have hensidx := ensureUserColumns_indices sheet username
    rw [hens] at hensidx
    refine ⟨hiv.symm, hnd.symm, username, sheet,
      { headers := sheet1.headers,
        rows := updateRowAt (updateRowAt (updateRowAt sheet1.rows rowIdx
            (fun row => setCellAt row ri (Cell.num rating))) rowIdx
            (fun row => setCellAt row li (Cell.date now))) rowIdx
            (fun row => setCellAt row ni
              (Cell.date (now + calculateInterval rating * msPerDay))) },
      ci, rowIdx, ni, rfl, hsheet, ?_, hci, hrow, ?_, ?_⟩
    · rw [← hst]
      exact getSheetByName_set_self store deckName _ (by rw [hsheet]; rfl)
    · exact hensidx.2.2.symm
    · have hlen2 : rowIdx <
          (updateRowAt (updateRowAt sheet1.rows rowIdx
              (fun row => setCellAt row ri (Cell.num rating))) rowIdx
            (fun row => setCellAt row li (Cell.date now))).length := by
        rw [updateRowAt_length, updateRowAt_length, hensrows]
        exact hrowlt
      rw [updateRowAt_getD_self _ _ _ hlen2]
      exact getCell_setCellAt_self _ _ _
  · exact absurd hok (by simp)

/-- A one-card deck whose progress columns for user alice already exist. -/
def cexSheet : Sheet :=
  { headers := ["FlashcardID", "FlashcardSideA", "FlashcardSideB",
      "alice_Rating", "alice_LastReview", "alice_NextDue"],
    rows := [[Cell.str "c1", Cell.str "front", Cell.str "back",
      Cell.empty, Cell.empty, Cell.empty]] }

def cexStore : Store := [("Deck1", cexSheet)]

/-- The store after alice rates card c1 with 2 ("Good") at noon of day 0
(43200000 ms): the interval is 7 days and the stored next due time is
`43200000 + 7·86400000 = 648000000`. -/
def cexStoreAfter : Store :=
  [("Deck1",
    { headers := ["FlashcardID", "FlashcardSideA", "FlashcardSideB",
        "alice_Rating", "alice_LastReview", "alice_NextDue"],
      rows := [[Cell.str "c1", Cell.str "front", Cell.str "back",
        Cell.num 2, Cell.date 43200000, Cell.date 648000000]] })]

/-- C1 counterexample: rating card c1 with 2 at noon of day 0 stores
`nextDue = 648000000` — noon of day 7, a raw offset from the raw clock —
while the claimed value `normalizedDay(now) + interval` days is midnight of
day 7 (604800000); the two differ, refuting the claim at this input. -/
theorem recordCardRating_not_normalized_cex :
    recordCardRating cexStore (some "alice") "Deck1" "c1" 2 43200000 =
      .ok (cexStoreAfter, 648000000, 7) ∧
    (648000000 : Nat) ≠ computeNextDueSpec 43200000 2 := by
  exact ⟨by rfl, by decide⟩

/-- C1 witness: the amended theorem applied to the concrete rating call of
the counterexample store. -/
theorem recordCardRating_nextDue_raw_offset_witness :
    (7 : Nat) = calculateInterval 2 ∧
    (648000000 : Nat) = 43200000 + calculateInterval 2 * msPerDay ∧
    ∃ username sheet sheet1 ci rowIdx ni,
      (some "alice" : Option String) = some username ∧
      getSheetByName cexStore "Deck1" = some sheet ∧
      getSheetByName cexStoreAfter "Deck1" = some sheet1 ∧
      indexOfName (trimmed sheet.headers) "FlashcardID" = some ci ∧
      sheet.rows.findIdx? (fun row => getCell row ci == Cell.str "c1") = some rowIdx ∧
      indexOfName (trimmed sheet1.headers) (userNextDueCol username) = some ni ∧
      getCell (sheet1.rows.getD rowIdx []) ni =
        Cell.date (43200000 + calculateInterval 2 * msPerDay) :=
  recordCardRating_nextDue_raw_offset cexStore (some "alice") "Deck1" "c1" 2 43200000
    cexStoreAfter 648000000 7 (by rfl)

theorem trimmed_append (a b : List String) :
    trimmed (a ++ b) = trimmed a ++ trimmed b := by
  unfold trimmed
  exact List.map_append strTrim a b

theorem indexOfName_append_isSome (h1 h2 : List String) (name : String)
    (hmem : (indexOfName h1 name).isSome = true ∨ name ∈ h2) :
    (indexOfName (h1 ++ h2) name).isSome = true := by
  unfold indexOfName at *
  rw [List.findIdx?_isSome] at *
  simp only [List.any_append, Bool.or_eq_true]
  rcases hmem with h | h
  · exact Or.inl h
  · exact Or.inr (by rw [List.any_eq_true]; exact ⟨name, h, by simp⟩)

/-- When the three per-user columns are all present (by exact name match in
the trimmed headers), the ensuring block performs no mutation and returns
their positions. -/
theorem ensureUserColumns_of_present (s : Sheet) (u : String)
    (h : ((indexOfName (trimmed s.headers) (userRatingCol u)).isSome &&
          (indexOfName (trimmed s.headers) (userLastReviewCol u)).isSome &&
          (indexOfName (trimmed s.headers) (userNextDueCol u)).isSome) = true) :
    ensureUserColumns s u =
      (s, indexOfName (trimmed s.headers) (userRatingCol u),
        indexOfName (trimmed s.headers) (userLastReviewCol u),
        indexOfName (trimmed s.headers) (userNextDueCol u)) := by
  simp only [ensureUserColumns]
  rw [if_pos h]

/-- One call leaves all three columns present, provided the three column
names are stable under trimming (the appended header cells are re-read
through `trim`). -/
theorem ensureUserColumns_present (sheet : Sheet) (u : String)
    (hr : strTrim (userRatingCol u) = userRatingCol u)
    (hl : strTrim (userLastReviewCol u) = userLastReviewCol u)
    (hn : strTrim (userNextDueCol u) = userNextDueCol u) :
    (ensureUserColumns sheet u).2.1.isSome = true ∧
    (ensureUserColumns sheet u).2.2.1.isSome = true ∧
    (ensureUserColumns sheet u).2.2.2.isSome = true := by
  simp only [ensureUserColumns]
  split
  · rename_i hc
    simp only [Bool.and_eq_true] at hc
    exact ⟨hc.1.1, hc.1.2, hc.2⟩
  · rename_i hc
    refine ⟨?_, ?_, ?_⟩
    · rw [trimmed_append]
      by_cases hri : (indexOfName (trimmed sheet.headers) (userRatingCol u)).isSome = true
      · exact indexOfName_append_isSome _ _ _ (Or.inl hri)
      · refine indexOfName_append_isSome _ _ _ (Or.inr ?_)
        have hnone : indexOfName (trimmed sheet.headers) (userRatingCol u) = none := by
          cases h : indexOfName (trimmed sheet.headers) (userRatingCol u)
          · rfl
          · exact absurd (by simp [h]) hri
        rw [hnone]
        simp [trimmed, hr]
    · rw [trimmed_append]
      by_cases hli : (indexOfName (trimmed sheet.headers) (userLastReviewCol u)).isSome = true
      · exact indexOfName_append_isSome _ _ _ (Or.inl hli)
      · refine indexOfName_append_isSome _ _ _ (Or.inr ?_)
        have hnone : indexOfName (trimmed sheet.headers) (userLastReviewCol u) = none := by
          cases h : indexOfName (trimmed sheet.headers) (userLastReviewCol u)
          · rfl
          · exact absurd (by simp [h]) hli
        rw [hnone]
        simp [trimmed, hl]
    · rw [trimmed_append]
      by_cases hni : (indexOfName (trimmed sheet.headers) (userNextDueCol u)).isSome = true
      · exact indexOfName_append_isSome _ _ _ (Or.inl hni)
      · refine indexOfName_append_isSome _ _ _ (Or.inr ?_)
        have hnone : indexOfName (trimmed sheet.headers) (userNextDueCol u) = none := by
          cases h : indexOfName (trimmed sheet.headers) (userNextDueCol u)
          · rfl
          · exact absurd (by simp [h]) hni
        rw [hnone]
        simp [trimmed, hn]

/-- C7: ensuring the per-user progress columns is idempotent.  Rows are
never touched; when the three columns already exist the call performs no
mutation and returns their positions; after any first call all three are
present; and a second call returns the same sheet and the same positions —
so across N repeated calls the triple is created exactly once and the
column count and positions are stable.  (The three column names must be
trim-stable: an untrimmed username would be re-trimmed on re-read.) -/
theorem ensureUserColumns_idempotent (sheet : Sheet) (u : String)
    (hr : strTrim (userRatingCol u) = userRatingCol u)
    (hl : strTrim (userLastReviewCol u) = userLastReviewCol u)
    (hn : strTrim (userNextDueCol u) = userNextDueCol u) :
    (ensureUserColumns sheet u).1.rows = sheet.rows ∧
    ((indexOfName (trimmed sheet.headers) (userRatingCol u)).isSome = true →
     (indexOfName (trimmed sheet.headers) (userLastReviewCol u)).isSome = true →
     (indexOfName (trimmed sheet.headers) (userNextDueCol u)).isSome = true →
      ensureUserColumns sheet u =
        (sheet, indexOfName (trimmed sheet.headers) (userRatingCol u),
          indexOfName (trimmed sheet.headers) (userLastReviewCol u),
          indexOfName (trimmed sheet.headers) (userNextDueCol u))) ∧
    (ensureUserColumns sheet u).2.1.isSome = true ∧
    (ensureUserColumns sheet u).2.2.1.isSome = true ∧
    (ensureUserColumns sheet u).2.2.2.isSome = true ∧
    ensureUserColumns (ensureUserColumns sheet u).1 u = ensureUserColumns sheet u := by
  have hidx := ensureUserColumns_indices sheet u
  have hpres := ensureUserColumns_present sheet u hr hl hn
  refine ⟨ensureUserColumns_rows sheet u, fun h1 h2 h3 => ?_,
    hpres.1, hpres.2.1, hpres.2.2, ?_⟩
  · exact ensureUserColumns_of_present sheet u (by rw [h1, h2, h3]; rfl)
  · have hc : ((indexOfName (trimmed (ensureUserColumns sheet u).1.headers)
          (userRatingCol u)).isSome &&
        (indexOfName (trimmed (ensureUserColumns sheet u).1.headers)
          (userLastReviewCol u)).isSome &&
        (indexOfName (trimmed (ensureUserColumns sheet u).1.headers)
          (userNextDueCol u)).isSome) = true := by
      rw [← hidx.1, ← hidx.2.1, ← hidx.2.2, hpres.1, hpres.2.1, hpres.2.2]
      rfl
    rw [ensureUserColumns_of_present _ u hc, ← hidx.1, ← hidx.2.1, ← hidx.2.2]

/-- C7 witness: the theorem applied to a fresh one-column deck and user bob
(the three appended names are trim-stable). -/
theorem ensureUserColumns_idempotent_witness :
    (ensureUserColumns ⟨["FlashcardID"], []⟩ "bob").1.rows = ([] : List (List Cell)) ∧
    ensureUserColumns (ensureUserColumns ⟨["FlashcardID"], []⟩ "bob").1 "bob" =
      ensureUserColumns ⟨["FlashcardID"], []⟩ "bob" := by
  have h := ensureUserColumns_idempotent ⟨["FlashcardID"], []⟩ "bob"
    (by decide) (by decide) (by decide)
  exact ⟨h.1, h.2.2.2.2.2⟩

/-! ### Clearing lemmas for resetDeckProgress -/

/-- Per-row form of one optional column clear. -/
def optSet (row : List Cell) (idx : Option Nat) : List Cell :=
  match idx with
  | some i => row.set i Cell.empty
  | none => row

theorem clearColumn_eq_map (rows : List (List Cell)) (idx : Option Nat) :
    clearColumn rows idx = rows.map (fun row => optSet row idx) := by
  cases idx
  · simp [clearColumn, optSet]
  · simp [clearColumn, optSet]

theorem optMapConst_idem (x : Option Cell) :
    Function.const Cell Cell.empty <$> (Function.const Cell Cell.empty <$> x) =
      Function.const Cell Cell.empty <$> x := by
  cases x <;> rfl

theorem rowClear_idem (row : List Cell) (a b c : Option Nat) :
    optSet (optSet (optSet (optSet (optSet (optSet row a) b) c) a) b) c =
      optSet (optSet (optSet row a) b) c := by
  apply List.ext_getElem?
  intro j
  rcases a with _ | a <;> rcases b with _ | b <;> rcases c with _ | c <;>
    simp only [optSet, List.getElem?_set'] <;>
    split_ifs <;> simp [optMapConst_idem]

theorem clearColumn3_idem (rows : List (List Cell)) (a b c : Option Nat) :
    clearColumn (clearColumn (clearColumn
      (clearColumn (clearColumn (clearColumn rows a) b) c) a) b) c =
      clearColumn (clearColumn (clearColumn rows a) b) c := by
  simp only [clearColumn_eq_map, List.map_map]
  congr 1
  funext row
  exact rowClear_idem row a b c

theorem setSheetByName_idem (store : Store) (name : String) (s : Sheet) :
    setSheetByName (setSheetByName store name s) name s = setSheetByName store name s := by
  unfold setSheetByName
  rw [List.map_map]
  congr 1
  funext p
  by_cases hp : p.1 = name <;> simp [hp]

theorem getD_const_empty (x : Option Cell) :
    (Function.const Cell Cell.empty <$> x).getD Cell.empty = Cell.empty := by
  cases x <;> rfl

theorem getCell_optSet_self (row : List Cell) (i : Nat) :
    getCell (optSet row (some i)) i = Cell.empty := by
  unfold getCell
  rw [List.getD_eq_getElem?_getD]
  simp only [optSet, List.getElem?_set', if_pos rfl]
  exact getD_const_empty _

theorem getCell_optSet_other (row : List Cell) (idx : Option Nat) (i : Nat)
    (h : getCell row i = Cell.empty) : getCell (optSet row idx) i = Cell.empty := by
  cases idx with
  | none => exact h
  | some k =>
    by_cases hk : k = i
    · subst hk
      exact getCell_optSet_self row k
    · unfold getCell at *
      rw [List.getD_eq_getElem?_getD] at *
      simp only [optSet, List.getElem?_set_ne hk]
      exact h

theorem getCell_rowClear_mem (row : List Cell) (a b c : Option Nat) (i : Nat)
    (h : a = some i ∨ b = some i ∨ c = some i) :
    getCell (optSet (optSet (optSet row a) b) c) i = Cell.empty := by
  rcases h with h | h | h
  · subst h
    exact getCell_optSet_other _ _ _ (getCell_optSet_other _ _ _ (getCell_optSet_self _ _))
  · subst h
    exact getCell_optSet_other _ _ _ (getCell_optSet_self _ _)
  · subst h
    exact getCell_optSet_self _ _

/-- C6: `resetDeckProgress` is idempotent — when a first call succeeds,
running it again returns the same store state unchanged; it clears only the
values: the deck sheet keeps its headers (columns are never removed) while
every cell of each existing per-user progress column reads empty afterwards
(so the progress read yields rating 0, no last review, no next due, and the
card is due); and when none of the user's three columns was ever created
the call is a successful no-op that leaves the store untouched. -/
theorem resetDeckProgress_idempotent (store : Store) (user : Option String)
    (deckName : String) (s1 : Store) (m1 : String)
    (hok : resetDeckProgress store user deckName = .ok (s1, m1)) :
    (∃ m2, resetDeckProgress s1 user deckName = .ok (s1, m2)) ∧
    (∀ sheet, getSheetByName store deckName = some sheet →
      ∃ sheet1, getSheetByName s1 deckName = some sheet1 ∧
        sheet1.headers = sheet.headers ∧
        (∀ u, user = some u →
          ∀ i, (indexOfName (trimmed sheet.headers) (userRatingCol u) = some i ∨
                indexOfName (trimmed sheet.headers) (userLastReviewCol u) = some i ∨
                indexOfName (trimmed sheet.headers) (userNextDueCol u) = some i) →
          ∀ r, getCell (sheet1.rows.getD r []) i = Cell.empty)) ∧
    (∀ u sheet, user = some u → getSheetByName store deckName = some sheet →
      indexOfName (trimmed sheet.headers) (userRatingCol u) = none →
      indexOfName (trimmed sheet.headers) (userLastReviewCol u) = none →
      indexOfName (trimmed sheet.headers) (userNextDueCol u) = none →
      s1 = store) := by
  unfold resetDeckProgress at hok
  split at hok
  · exact absurd hok (by simp)
  rename_i username
  split at hok
  · exact absurd hok (by simp)
  rename_i sheet hsheet
  dsimp only at hok
  split at hok
  · rename_i hcond
    simp only [Bool.and_eq_true, Option.isNone_iff_eq_none] at hcond
    obtain ⟨⟨hr0, hl0⟩, hn0⟩ := hcond
    simp only [Except.ok.injEq, Prod.mk.injEq] at hok
    obtain ⟨hs1, hm1⟩ := hok
    subst hs1
    refine ⟨⟨m1, ?_⟩, ?_, ?_⟩
    · unfold resetDeckProgress
      rw [hsheet]
      dsimp only
      rw [if_pos (by simp [hr0, hl0, hn0])]
      rw [hm1]
    · intro sheet0 hsheet0
      rw [hsheet] at hsheet0
      obtain rfl : sheet = sheet0 := Option.some.inj hsheet0
      refine ⟨sheet, hsheet, rfl, ?_⟩
      intro u hu i hi r
      obtain rfl : username = u := Option.some.inj hu
      rcases hi with hi | hi | hi
      · rw [hr0] at hi
        exact absurd hi (by simp)
      · rw [hl0] at hi
        exact absurd hi (by simp)
      · rw [hn0] at hi
        exact absurd hi (by simp)
    · intro u sheet0 hu hsheet0 h1 h2 h3
      rfl
  · rename_i hcond
    simp only [Except.ok.injEq, Prod.mk.injEq] at hok
    obtain ⟨hs1, hm1⟩ := hok
    have hsome : (getSheetByName store deckName).isSome := by rw [hsheet]; rfl
    have hgets1 : getSheetByName s1 deckName =
        some (Sheet.mk sheet.headers
          (clearColumn (clearColumn (clearColumn sheet.rows
            (indexOfName (trimmed sheet.headers) (userRatingCol username)))
            (indexOfName (trimmed sheet.headers) (userLastReviewCol username)))
            (indexOfName (trimmed sheet.headers) (userNextDueCol username)))) := by
      rw [← hs1]
      exact getSheetByName_set_self store deckName _ hsome
    refine ⟨⟨"Progress for deck \"" ++ deckName ++ "\" has been reset successfully.", ?_⟩, ?_, ?_⟩
    · unfold resetDeckProgress
      rw [hgets1]
      dsimp only
      rw [if_neg (by exact fun hc => hcond hc)]
      rw [clearColumn3_idem, ← hs1, setSheetByName_idem]
    · intro sheet0 hsheet0
      rw [hsheet] at hsheet0
      obtain rfl : sheet = sheet0 := Option.some.inj hsheet0
      refine ⟨_, hgets1, rfl, ?_⟩
      intro u hu i hi r
      obtain rfl : username = u := Option.some.inj hu
      show getCell ((clearColumn (clearColumn (clearColumn sheet.rows _) _) _).getD r []) i =
        Cell.empty
      simp only [clearColumn_eq_map, List.map_map]
      rw [List.getD_eq_getElem?_getD, List.getElem?_map]
      cases hrow : sheet.rows[r]? with
      | none => simp [getCell]
      | some row =>
        exact getCell_rowClear_mem row _ _ _ i hi
    · intro u sheet0 hu hsheet0 h1 h2 h3
      obtain rfl : username = u := Option.some.inj hu
      rw [hsheet] at hsheet0
      obtain rfl : sheet = sheet0 := Option.some.inj hsheet0
      exact absurd (by simp [h1, h2, h3]) hcond

/-- C6 witness: the theorem applied to alice's rated one-card deck; the
reset clears her three cells back to empty (yielding `cexStore`) and a
second run returns that same state. -/
theorem resetDeckProgress_idempotent_witness :
    ∃ m2, resetDeckProgress cexStore (some "alice") "Deck1" = .ok (cexStore, m2) := by
  obtain ⟨h, -, -⟩ := resetDeckProgress_idempotent cexStoreAfter (some "alice") "Deck1"
    cexStore "Progress for deck \"Deck1\" has been reset successfully." (by rfl)
  exact h

theorem indexOfName_getElem? (hs : List String) (name : String) (i : Nat)
    (h : indexOfName hs name = some i) : hs[i]? = some name := by
  unfold indexOfName at h
  obtain ⟨hlt, hp, -⟩ := List.findIdx?_eq_some_iff_getElem.mp h
  rw [List.getElem?_eq_getElem hlt]
  exact congrArg some (by simpa using hp)

theorem getCell_optSet_ne (row : List Cell) (k : Nat) (c : Nat) (h : k ≠ c) :
    getCell (optSet row (some k)) c = getCell row c := by
  unfold getCell optSet
  rw [List.getD_eq_getElem?_getD, List.getD_eq_getElem?_getD, List.getElem?_set_ne h]

/-- C10: a successful `resetDeckProgress` only touches the calling user's
three progress columns of the named deck.  Every other sheet of the store
is unchanged; the deck sheet keeps its headers and its row count; and every
cell in a column whose (trimmed) header is not one of the user's three
column names — all card-content columns and every other user's progress
columns — holds the same value after the reset as before it. -/
theorem resetDeckProgress_frame (store : Store) (user : Option String)
    (deckName : String) (s1 : Store) (m1 : String)
    (hok : resetDeckProgress store user deckName = .ok (s1, m1)) :
    (∀ other, (other == deckName) = false →
      getSheetByName s1 other = getSheetByName store other) ∧
    (∀ u sheet, user = some u → getSheetByName store deckName = some sheet →
      ∃ sheet1, getSheetByName s1 deckName = some sheet1 ∧
        sheet1.headers = sheet.headers ∧
        sheet1.rows.length = sheet.rows.length ∧
        (∀ r c, (trimmed sheet.headers)[c]? ≠ some (userRatingCol u) →
          (trimmed sheet.headers)[c]? ≠ some (userLastReviewCol u) →
          (trimmed sheet.headers)[c]? ≠ some (userNextDueCol u) →
          getCell (sheet1.rows.getD r []) c = getCell (sheet.rows.getD r []) c)) := by
  unfold resetDeckProgress at hok
  split at hok
  · exact absurd hok (by simp)
  rename_i username
  split at hok
  · exact absurd hok (by simp)
  rename_i sheet hsheet
  dsimp only at hok
  split at hok
  · simp only [Except.ok.injEq, Prod.mk.injEq] at hok
    obtain ⟨hs1, -⟩ := hok
    subst hs1
    refine ⟨fun other _ => rfl, ?_⟩
    intro u sheet0 hu hsheet0
    rw [hsheet] at hsheet0
    obtain rfl : sheet = sheet0 := Option.some.inj hsheet0
    exact ⟨sheet, hsheet, rfl, rfl, fun r c _ _ _ => rfl⟩
  · rename_i hcond
    simp only [Except.ok.injEq, Prod.mk.injEq] at hok
    obtain ⟨hs1, -⟩ := hok
    have hsome : (getSheetByName store deckName).isSome := by rw [hsheet]; rfl
    constructor
    · intro other hother
      rw [← hs1]
      exact getSheetByName_set_ne store deckName other _ hother
    · intro u sheet0 hu hsheet0
      have hequ : u = username := (Option.some.inj hu).symm
      subst hequ
      rw [hsheet] at hsheet0
      have heqs : sheet0 = sheet := (Option.some.inj hsheet0).symm
      subst heqs
      refine ⟨Sheet.mk sheet0.headers
          (clearColumn (clearColumn (clearColumn sheet0.rows
            (indexOfName (trimmed sheet0.headers) (userRatingCol u)))
            (indexOfName (trimmed sheet0.headers) (userLastReviewCol u)))
            (indexOfName (trimmed sheet0.headers) (userNextDueCol u))),
        ?_, rfl, ?_, ?_⟩
      · rw [← hs1]
        exact getSheetByName_set_self store deckName _ hsome
      · simp [clearColumn_eq_map]
      · intro r c hcr hcl hcn
        have step : ∀ (row : List Cell) (name : String),
            (trimmed sheet0.headers)[c]? ≠ some name →
            getCell (optSet row (indexOfName (trimmed sheet0.headers) name)) c = getCell row c := by
          intro row name hne
          cases hidx : indexOfName (trimmed sheet0.headers) name with
          | none => rfl
          | some k =>
            have hk := indexOfName_getElem? _ _ _ hidx
            exact getCell_optSet_ne row k c (fun e => hne (e ▸ hk))
        show getCell ((clearColumn (clearColumn (clearColumn sheet0.rows _) _) _).getD r []) c =
          getCell (sheet0.rows.getD r []) c
        simp only [clearColumn_eq_map, List.map_map]
        rw [List.getD_eq_getElem?_getD, List.getElem?_map]
        cases hrow : sheet0.rows[r]? with
        | none =>
          rw [List.getD_eq_getElem?_getD, hrow]
          rfl
        | some row =>
          rw [List.getD_eq_getElem?_getD, hrow]
          show getCell (optSet (optSet (optSet row _) _) _) c = getCell row c
          rw [step _ _ hcn, step _ _ hcl, step _ _ hcr]

/-- C10 witness: the frame theorem applied to a two-deck store — resetting
alice's progress on Deck1 leaves Deck2 untouched and keeps the card-content
cell of Deck1's row. -/
theorem resetDeckProgress_frame_witness :
    getSheetByName (cexStore ++ [("Deck2", cexSheet)]) "Deck2" =
      getSheetByName (cexStoreAfter ++ [("Deck2", cexSheet)]) "Deck2" ∧
    ∃ sheet1, getSheetByName (cexStore ++ [("Deck2", cexSheet)]) "Deck1" = some sheet1 ∧
      getCell (sheet1.rows.getD 0 []) 0 = Cell.str "c1" := by
  have h := resetDeckProgress_frame (cexStoreAfter ++ [("Deck2", cexSheet)]) (some "alice")
    "Deck1" (cexStore ++ [("Deck2", cexSheet)])
    "Progress for deck \"Deck1\" has been reset successfully." (by rfl)
  refine ⟨h.1 "Deck2" (by decide), ?_⟩
  obtain ⟨sheet1, hs, hh, hlen, hcells⟩ := h.2 "alice" _ rfl rfl
  refine ⟨sheet1, hs, ?_⟩
  rw [hcells 0 0 (by decide) (by decide) (by decide)]
  rfl

theorem foldl_push_filter_map (headers : List String) (rows : List (List Cell))
    (acc : List CardObj) :
    rows.foldl (fun acc row =>
      if keepRow headers row then acc ++ [finalizeCard headers row] else acc) acc =
      acc ++ (rows.filter (keepRow headers)).map (finalizeCard headers) := by
  induction rows generalizing acc with
  | nil => simp
  | cons row rest ih =>
    by_cases h : keepRow headers row
    · simp [List.foldl_cons, List.filter_cons, h, ih]
    · simp [List.foldl_cons, List.filter_cons, h, ih]

/-- C9: reading a deck's raw cards fails with the deck-not-found error
exactly when the sheet is missing; fails with a schema error naming the
first mandatory column (id, sideA, sideB) absent from the trimmed header
row; and otherwise always succeeds, returning exactly the rows whose
mandatory values are present, in order — each corrupt row is skipped alone
and never aborts the whole read. -/
theorem getDeckFlashcards_row_skipping (store : Store) (deckName : String) :
    (getSheetByName store deckName = none →
      getDeckFlashcards store deckName = .error ("Deck \"" ++ deckName ++ "\" not found.")) ∧
    (∀ sheet, getSheetByName store deckName = some sheet →
      ∀ col, requiredColumns.find? (fun c => !((trimmed sheet.headers).contains c)) = some col →
        getDeckFlashcards store deckName =
          .error ("Deck \"" ++ deckName ++ "\" is missing required column: \"" ++ col ++
            "\". Please check sheet headers.")) ∧
    (∀ sheet, getSheetByName store deckName = some sheet →
      requiredColumns.find? (fun c => !((trimmed sheet.headers).contains c)) = none →
      getDeckFlashcards store deckName =
        .ok ((sheet.rows.filter (keepRow (trimmed sheet.headers))).map
          (finalizeCard (trimmed sheet.headers)))) := by
  refine ⟨fun hmiss => ?_, fun sheet hsheet col hcol => ?_, fun sheet hsheet hok => ?_⟩
  · unfold getDeckFlashcards
    rw [hmiss]
  · unfold getDeckFlashcards
    rw [hsheet]
    dsimp only
    rw [hcol]
  · unfold getDeckFlashcards
    rw [hsheet]
    dsimp only
    rw [hok]
    rw [foldl_push_filter_map]
    rfl

/-- A deck used for witnesses: three rows, the middle one missing its
mandatory side B value. -/
def skipSheet : Sheet :=
  { headers := ["FlashcardID", "FlashcardSideA", "FlashcardSideB"],
    rows := [[Cell.str "c1", Cell.str "a1", Cell.str "b1"],
             [Cell.str "c2", Cell.str "a2", Cell.empty],
             [Cell.str "c3", Cell.str "a3", Cell.str "b3"]] }

/-- C9 witness: the theorem applied to a missing deck, a deck without its
side-B column, and a deck with one corrupt row — which yields exactly the
two valid cards, in order. -/
theorem getDeckFlashcards_row_skipping_witness :
    getDeckFlashcards [] "Nope" = .error "Deck \"Nope\" not found." ∧
    getDeckFlashcards [("B", Sheet.mk ["FlashcardID", "FlashcardSideA"] [])] "B" =
      .error "Deck \"B\" is missing required column: \"FlashcardSideB\". Please check sheet headers." ∧
    getDeckFlashcards [("A", skipSheet)] "A" =
      .ok [[("FlashcardID", Cell.str "c1"), ("FlashcardSideA", Cell.str "a1"),
            ("FlashcardSideB", Cell.str "b1"), ("StudyConfig", Cell.empty)],
           [("FlashcardID", Cell.str "c3"), ("FlashcardSideA", Cell.str "a3"),
            ("FlashcardSideB", Cell.str "b3"), ("StudyConfig", Cell.empty)]] := by
  refine ⟨(getDeckFlashcards_row_skipping [] "Nope").1 rfl, ?_, ?_⟩
  · exact (getDeckFlashcards_row_skipping
      [("B", Sheet.mk ["FlashcardID", "FlashcardSideA"] [])] "B").2.1
      (Sheet.mk ["FlashcardID", "FlashcardSideA"] []) rfl "FlashcardSideB" (by rfl)
  · rw [(getDeckFlashcards_row_skipping [("A", skipSheet)] "A").2.2 skipSheet rfl (by rfl)]
    rfl

/-! ### Per-deck isolation lemmas for getUserDueCards -/

/-- The per-deck annotation: counts on success, the failure message
otherwise. -/
def mkDeckEntry : Except String (Store × DeckInfo) → DeckEntry
  | .ok (_, info) => .counts info.totalCards info.dueCards
  | .error m => .err m

theorem getDeckFlashcards_congr (st1 st2 : Store) (d : String)
    (h : getSheetByName st1 d = getSheetByName st2 d) :
    getDeckFlashcards st1 d = getDeckFlashcards st2 d := by
  unfold getDeckFlashcards
  rw [h]

theorem getUserDeckProgress_congr (st1 st2 : Store) (u d : String) (ids : List String)
    (h : getSheetByName st1 d = getSheetByName st2 d) :
    (∀ e, getUserDeckProgress st1 u d ids = .error e →
      getUserDeckProgress st2 u d ids = .error e) ∧
    (∀ st1' m, getUserDeckProgress st1 u d ids = .ok (st1', m) →
      ∃ st2', getUserDeckProgress st2 u d ids = .ok (st2', m)) := by
  unfold getUserDeckProgress
  rw [h]
  cases hs : getSheetByName st2 d with
  | none => exact ⟨fun e he => he, fun st1' m hok => absurd hok (by simp)⟩
  | some sheet =>
    dsimp only
    cases hidx : indexOfName (trimmed sheet.headers) "FlashcardID" with
    | none => exact ⟨fun e he => he, fun st1' m hok => absurd hok (by simp)⟩
    | some ci =>
      refine ⟨fun e he => absurd he (by simp), fun st1' m hok => ?_⟩
      simp only [Except.ok.injEq, Prod.mk.injEq] at hok
      exact ⟨setSheetByName st2 d (ensureUserColumns sheet u).1, by rw [← hok.2]⟩

theorem getFlashcardsForDeck_congr (st1 st2 : Store) (user : Option String)
    (d : String) (now : Nat)
    (h : getSheetByName st1 d = getSheetByName st2 d) :
    (∀ e, getFlashcardsForDeck st1 user d now = .error e →
      getFlashcardsForDeck st2 user d now = .error e) ∧
    (∀ st1' info, getFlashcardsForDeck st1 user d now = .ok (st1', info) →
      ∃ st2', getFlashcardsForDeck st2 user d now = .ok (st2', info)) := by
  unfold getFlashcardsForDeck
  cases user with
  | none => exact ⟨fun e he => he, fun st1' info hok => absurd hok (by simp)⟩
  | some username =>
    dsimp only
    rw [getDeckFlashcards_congr st1 st2 d h]
    cases hraw : getDeckFlashcards st2 d with
    | error e => exact ⟨fun e1 he1 => he1, fun st1' info hok => absurd hok (by simp)⟩
    | ok rawCards =>
      dsimp only
      have hcong := getUserDeckProgress_congr st1 st2 username d
        (rawCards.map (fun c => (cardField c "FlashcardID").keyString)) h
      cases hp1 : getUserDeckProgress st1 username d
          (rawCards.map (fun c => (cardField c "FlashcardID").keyString)) with
      | error e =>
        rw [hcong.1 e hp1]
        exact ⟨fun e1 he1 => he1, fun st1' info hok => absurd hok (by simp)⟩
      | ok pr =>
        obtain ⟨st2', hp2⟩ := hcong.2 pr.1 pr.2 hp1
        rw [hp2]
        dsimp only
        refine ⟨fun e1 he1 => absurd he1 (by simp), fun st1' info hok => ?_⟩
        simp only [Except.ok.injEq, Prod.mk.injEq] at hok
        exact ⟨st2', by rw [hok.2]⟩

theorem getUserDeckProgress_frame (st : Store) (u d : String) (ids : List String)
    (st' : Store) (m : String → Option Progress)
    (hok : getUserDeckProgress st u d ids = .ok (st', m)) :
    ∀ d2, (d2 == d) = false → getSheetByName st' d2 = getSheetByName st d2 := by
  unfold getUserDeckProgress at hok
  split at hok
  · exact absurd hok (by simp)
  rename_i sheet hsheet
  dsimp only at hok
  split at hok
  · exact absurd hok (by simp)
  rename_i ci hci
  simp only [Except.ok.injEq, Prod.mk.injEq] at hok
  obtain ⟨hst, -⟩ := hok
  intro d2 hne
  rw [← hst]
  exact getSheetByName_set_ne st d d2 _ hne

theorem getFlashcardsForDeck_frame (st : Store) (user : Option String)
    (d : String) (now : Nat) (st' : Store) (info : DeckInfo)
    (hok : getFlashcardsForDeck st user d now = .ok (st', info)) :
    ∀ d2, (d2 == d) = false → getSheetByName st' d2 = getSheetByName st d2 := by
  unfold getFlashcardsForDeck at hok
  split at hok
  · exact absurd hok (by simp)
  rename_i username
  split at hok
  · exact absurd hok (by simp)
  rename_i rawCards hraw
  dsimp only at hok
  split at hok
  · exact absurd hok (by simp)
  rename_i store1 pr hpr
  simp only [Except.ok.injEq, Prod.mk.injEq] at hok
  obtain ⟨hst, -⟩ := hok
  intro d2 hne
  rw [← hst]
  exact getUserDeckProgress_frame st username d _ store1 pr hpr d2 hne

/-- The per-deck fold of `getUserDueCards`, run against the live store,
produces exactly the annotations each deck would get against the pristine
store: each call only mutates its own deck's sheet, so (with distinct deck
names) later decks are unaffected by earlier ones. -/
theorem dueCards_foldl_isolation (store : Store) (u : String) (now : Nat) :
    ∀ (decks : List String) (st : Store) (acc : List (String × DeckEntry)),
      decks.Nodup →
      (∀ d, d ∈ decks → getSheetByName st d = getSheetByName store d) →
      (decks.foldl (dueCardsStep (some u) now) (st, acc)).2 =
        acc ++ decks.map (fun d =>
          (d, mkDeckEntry (getFlashcardsForDeck store (some u) d now))) := by
  intro decks
  induction decks with
  | nil => intro st acc _ _; simp
  | cons d rest ih =>
    intro st acc hnd hinv
    have hd := hinv d (List.mem_cons_self d rest)
    have hcong := getFlashcardsForDeck_congr st store (some u) d now hd
    rw [List.foldl_cons, List.map_cons]
    cases hcall : getFlashcardsForDeck st (some u) d now with
    | error e =>
      have hstore : getFlashcardsForDeck store (some u) d now = .error e := hcong.1 e hcall
      have hstep : dueCardsStep (some u) now (st, acc) d =
          (st, acc ++ [(d, DeckEntry.err e)]) := by
        unfold dueCardsStep
        rw [hcall]
      rw [hstep, ih st _ (List.nodup_cons.mp hnd).2
        (fun d2 hd2 => hinv d2 (List.mem_cons_of_mem d hd2))]
      simp [hstore, mkDeckEntry]
    | ok pr =>
      obtain ⟨st1, info⟩ := pr
      obtain ⟨st2', hstore⟩ := hcong.2 st1 info hcall
      have hstep : dueCardsStep (some u) now (st, acc) d =
          (st1, acc ++ [(d, DeckEntry.counts info.totalCards info.dueCards)]) := by
        unfold dueCardsStep
        rw [hcall]
      have hframe := getFlashcardsForDeck_frame st (some u) d now st1 info hcall
      have hinv1 : ∀ d2, d2 ∈ rest → getSheetByName st1 d2 = getSheetByName store d2 := by
        intro d2 hd2
        have hne : (d2 == d) = false := by
          have hdd : d2 ≠ d := fun e => (List.nodup_cons.mp hnd).1 (e ▸ hd2)
          simpa using hdd
        rw [hframe d2 hne]
        exact hinv d2 (List.mem_cons_of_mem d hd2)
      rw [hstep, ih st1 _ (List.nodup_cons.mp hnd).2 hinv1]
      simp [hstore, mkDeckEntry]

/-- C8: for a logged-in user over a store with distinct sheet names,
`getUserDueCards` always returns a success whose `dueCardsByDeck` has one
entry per available deck, and each deck's entry is exactly what that deck's
own `getFlashcardsForDeck` call on the pristine store yields — a failing
deck is annotated with its error message under its own key while every
other deck is aggregated normally. -/
theorem getUserDueCards_per_deck_isolation (store : Store) (u : String) (now : Nat)
    (hnodup : (store.map Prod.fst).Nodup) :
    getUserDueCards store (some u) now =
      .ok (getAvailableDecks store true,
        (getAvailableDecks store true).map
          (fun d => (d, mkDeckEntry (getFlashcardsForDeck store (some u) d now)))) := by
  unfold getUserDueCards
  dsimp only
  rw [dueCards_foldl_isolation store u now (getAvailableDecks store true) store []
    (List.Nodup.filter _ hnodup) (fun d _ => rfl)]
  rfl

/-- The spec's aggregation example: deck A is valid (two of its three rows
are valid cards), deck B is missing its side-B column. -/
def dueStore : Store :=
  [("A", skipSheet), ("B", Sheet.mk ["FlashcardID", "FlashcardSideA"] [])]

/-- C8 witness: the theorem applied to the A/B example — the overall call
succeeds, deck A is counted normally (2 cards, both due for a fresh user)
and deck B carries the schema-error annotation under its own key. -/
theorem getUserDueCards_per_deck_isolation_witness :
    getUserDueCards dueStore (some "alice") 0 =
      .ok (["A", "B"],
        [("A", DeckEntry.counts 2 2),
         ("B", DeckEntry.err ("Server error getting flashcards for deck \"B\": " ++
           "Deck \"B\" is missing required column: \"FlashcardSideB\". Please check sheet headers."))]) := by
  rw [getUserDueCards_per_deck_isolation dueStore "alice" 0 (by decide)]
  rfl

end Flashcards
